import Mathlib

/-!
Verification development for the `pkg_mysql` Go package (file `mysql.go`).

The embedding models the schema-reconciliation entry point `(*DB).Schema`
(mysql.go lines 123-210), its line-reading loop over `bufio.Reader.ReadLine`,
and the row mapper `(*DB).Update` (lines 445-487).

Modelling conventions:
- The `dbSchemaLog` table is a list of `(id, tx)` rows; `INSERT` appends,
  `DELETE ... WHERE id=?` filters, `SELECT tx ... WHERE id=?` is `logLookup`.
- Database failures (query errors, failing statement executions, failing
  transaction begins/commits) are injected through an `Env` of Boolean
  oracles indexed by the row number being processed, mirroring each
  fallible call in the Go code.  `envOK` is the failure-free environment.
- `bufio.Reader.ReadLine` yields records `(bytes, isPrefixFlag)` with a nil
  error (per the bufio contract a call that returns an error returns no
  bytes), terminated by either `io.EOF` or another read error; the record
  stream is a `List (String × Bool)` plus a Bool (`true` = the terminal
  error was `io.EOF`).
- Go's `database/sql` `Row.Scan` leaves its destination untouched when it
  returns an error (including `sql.ErrNoRows`); the model therefore keeps
  the previous contents of `currentTx` in those cases, exactly as the Go
  runtime does.
-/

namespace Mysql

/-- State visible to `Schema`: the rows of the `dbSchemaLog` table in the
target database, and the `schemaChanges` counter, which in the Go code is a
field of the `DB` struct (mysql.go line 80) and hence survives across calls
to `Schema` on the same `DB` value. -/
structure DBState where
  log : List (Nat × String)
  schemaChanges : Nat
  deriving DecidableEq

/-- Failure-injection oracles, one per fallible database call in `Schema`.
The three `setup*` flags correspond to the preliminary
`BeginTx` / `CREATE TABLE IF NOT EXISTS dbSchemaLog` / `Commit`
(mysql.go lines 129-141).  The per-row oracles correspond to the calls made
while processing the statement numbered `n = schemaChanges`:
`lookupFails n` = the `QueryRowContext(...).Scan` fails with an error other
than `sql.ErrNoRows` (line 169); `beginFails n` = `BeginTx` fails
(line 180); `insertFails n` = the log INSERT fails (line 186);
`execFails n b` = executing statement text `b` fails (line 193);
`deleteFails n` = the compensating `DELETE`/`Commit` pair fails
(lines 196-197; the Go code ignores both errors, so a failure here leaves
the log row behind); `commitFails n` = the final `Commit` fails (line 202;
the Go code then calls `Rollback`, but by that point the inserted row may
have been durably committed by an implicit-commit statement, so the model
keeps it - no claim depends on this choice). -/
structure Env where
  setupBeginFails : Bool
  createFails : Bool
  setupCommitFails : Bool
  lookupFails : Nat → Bool
  beginFails : Nat → Bool
  insertFails : Nat → Bool
  execFails : Nat → String → Bool
  deleteFails : Nat → Bool
  commitFails : Nat → Bool

/-- The failure-free environment: every database call succeeds. -/
def envOK : Env where
  setupBeginFails := false
  createFails := false
  setupCommitFails := false
  lookupFails := fun _ => false
  beginFails := fun _ => false
  insertFails := fun _ => false
  execFails := fun _ _ => false
  deleteFails := fun _ => false
  commitFails := fun _ => false

/-- `SELECT tx FROM dbSchemaLog WHERE id=?` (mysql.go line 169). -/
def logLookup : List (Nat × String) → Nat → Option String
  | [], _ => none
  | (i, t) :: rest, n => if i = n then some t else logLookup rest n

/-- `INSERT INTO dbSchemaLog (id, tx) VALUES (?, ?)` (mysql.go line 186). -/
def logInsert (log : List (Nat × String)) (n : Nat) (t : String) :
    List (Nat × String) :=
  log ++ [(n, t)]

/-- `DELETE FROM dbSchemaLog WHERE id=?` (mysql.go line 196). -/
def logDelete : List (Nat × String) → Nat → List (Nat × String)
  | [], _ => []
  | (i, t) :: rest, n =>
    if i = n then logDelete rest n else (i, t) :: logDelete rest n

/-- Result of one `Schema` run, one constructor per distinct `return` in the
Go code (mysql.go lines 131, 135, 140, 157, 160, 176, 182, 189, 198, 205
and the `return nil`).  `ok` is the nil error.  `divergence n stored b`
carries the data interpolated into the error of line 176 (row number, the
contents of `currentTx`, the incoming statement); `applyErr`/`commitErr`
carry the row number and statement of lines 198/205. -/
inductive SchemaResult
  | ok
  | setupBeginErr
  | createErr
  | setupCommitErr
  | readErr
  | divergence (row : Nat) (stored incoming : String)
  | beginErr
  | insertErr (row : Nat)
  | applyErr (row : Nat) (stmt : String)
  | commitErr (row : Nat) (stmt : String)
  deriving DecidableEq

/-- Outcome of processing one non-blank statement: either continue with the
updated state and the updated `currentTx` buffer, or halt the run. -/
inductive StepOut
  | next (st : DBState) (cur : String)
  | halt (st : DBState) (r : SchemaResult)
  deriving DecidableEq

/-- The `DBState` carried by a `StepOut`. -/
def StepOut.state : StepOut → DBState
  | .next st _ => st
  | .halt st _ => st

/-- Result of the `Scan` on line 169: a row was found, `sql.ErrNoRows`, or
any other error. -/
inductive ScanResult
  | found (t : String)
  | noRows
  | failed
  deriving DecidableEq

/-- Body of the `for` loop of `Schema` for one non-blank statement `b`
(mysql.go lines 166-206), starting from `currentTx` as left by the previous
iteration.  Mirrors the Go control flow exactly:
`schemaChanges++`; `Scan(&currentTx)` (which does not write `currentTx`
unless it succeeds); `if currentTx == string(b) { continue }`;
`if e != sql.ErrNoRows { return ... }`; then begin / insert / exec /
compensating delete / commit. -/
def schemaStep (env : Env) (st : DBState) (currentTx : String) (b : String) :
    StepOut :=
  let n := st.schemaChanges + 1
  let scan : ScanResult :=
    if env.lookupFails n then .failed
    else
      match logLookup st.log n with
      | some t => .found t
      | none => .noRows
  let cur : String :=
    match scan with
    | .found t => t
    | _ => currentTx
  if cur = b then
    .next ⟨st.log, n⟩ cur
  else if scan ≠ ScanResult.noRows then
    .halt ⟨st.log, n⟩ (.divergence n cur b)
  else if env.beginFails n then
    .halt ⟨st.log, n⟩ .beginErr
  else if env.insertFails n then
    .halt ⟨st.log, n⟩ (.insertErr n)
  else
    let log1 := logInsert st.log n b
    if env.execFails n b then
      .halt ⟨if env.deleteFails n then log1 else logDelete log1 n, n⟩
        (.applyErr n b)
    else if env.commitFails n then
      .halt ⟨log1, n⟩ (.commitErr n b)
    else
      .next ⟨log1, n⟩ cur

/-- The reading/processing loop of `Schema` (mysql.go lines 144-208):
`data` is the partial-line accumulator, `cur` is `currentTx`.  A record
with the prefix flag set is accumulated and the loop continues; otherwise
the assembled line is processed unless blank.  When the record list is
exhausted the terminal `ReadLine` error arrives with no bytes: `io.EOF`
(`eof = true`) returns nil - discarding any pending `data` - and any other
error returns the read error. -/
def schemaLoop (env : Env) :
    List (String × Bool) → Bool → DBState → String → String →
    DBState × SchemaResult
  | [], eof, st, _, _ => (st, if eof then .ok else .readErr)
  | (bytes, cont) :: rest, eof, st, cur, data =>
    if cont then schemaLoop env rest eof st cur (data ++ bytes)
    else
      let b := data ++ bytes
      if b = "" then schemaLoop env rest eof st cur ""
      else
        match schemaStep env st cur b with
        | .next st' cur' => schemaLoop env rest eof st' cur' ""
        | .halt st' r => (st', r)

/-- `(*DB).Schema` (mysql.go lines 123-210): the preliminary creation of
`dbSchemaLog` in its own committed transaction, then the statement loop
with `currentTx` and `data` starting empty. -/
def Schema (env : Env) (recs : List (String × Bool)) (eof : Bool)
    (st : DBState) : DBState × SchemaResult :=
  if env.setupBeginFails then (st, .setupBeginErr)
  else if env.createFails then (st, .createErr)
  else if env.setupCommitFails then (st, .setupCommitErr)
  else schemaLoop env recs eof st "" ""

/-- The complete lines assembled by the reading loop from accumulator
`data` and the record stream: a prefix record extends the accumulator, a
final record completes a line.  Fragments still pending when the stream
ends are discarded, as the Go loop does at lines 156-161. -/
def linesOf : String → List (String × Bool) → List String
  | _, [] => []
  | data, (bytes, cont) :: rest =>
    if cont then linesOf (data ++ bytes) rest
    else (data ++ bytes) :: linesOf "" rest

/-- Statement processing over already-assembled lines: skip blanks,
otherwise run `schemaStep`; returns the final state, the final `currentTx`,
and `some r` if the run halted.  `schemaLoop` factors through this
(`schemaLoop_factor`). -/
def processLines (env : Env) :
    List String → DBState → String → DBState × String × Option SchemaResult
  | [], st, cur => (st, cur, none)
  | b :: rest, st, cur =>
    if b = "" then processLines env rest st cur
    else
      match schemaStep env st cur b with
      | .next st' cur' => processLines env rest st' cur'
      | .halt st' r => (st', cur, some r)

/-- The non-blank lines of a line list (`if len(b) == 0 { continue }`,
mysql.go line 162). -/
def nonBlank : List String → List String
  | [] => []
  | s :: rest => if s = "" then nonBlank rest else s :: nonBlank rest

/-- `numberFrom c [s1, ..., sk] = [(c+1, s1), ..., (c+k, sk)]`: the log
rows a failure-free run inserts for fresh statements. -/
def numberFrom (c : Nat) : List String → List (Nat × String)
  | [] => []
  | s :: rest => (c + 1, s) :: numberFrom (c + 1) rest

/-- Last element of a list, with default `d` for the empty list; tracks the
final contents of the `currentTx` buffer along an all-skip run. -/
def lastD : List String → String → String
  | [], d => d
  | s :: rest, _ => lastD rest s

/-- `matchesFrom L c stmts`: the log `L` stores, at ids `c+1, c+2, ...`,
exactly the texts `stmts` - the hypothesis under which a run skips every
statement. -/
def matchesFrom (L : List (Nat × String)) : Nat → List String → Bool
  | _, [] => true
  | c, s :: rest =>
    decide (logLookup L (c + 1) = some s) && matchesFrom L (c + 1) rest

/-- Contents of the `currentTx` buffer right after the `Scan` of mysql.go
line 169: overwritten with the stored text when the lookup succeeds, left
holding its previous value when the lookup returns no row or fails. -/
def scannedTx (env : Env) (st : DBState) (currentTx : String) : String :=
  if env.lookupFails (st.schemaChanges + 1) then currentTx
  else
    match logLookup st.log (st.schemaChanges + 1) with
    | some t => t
    | none => currentTx

/-- Environment whose only failure is a non-`ErrNoRows` error from the log
lookup for row 2. -/
def envLF2 : Env :=
  { envOK with lookupFails := fun n => n == 2 }

/-- Environment whose only failure is that executing the statement at row 2
fails. -/
def envEF2 : Env :=
  { envOK with execFails := fun n _ => n == 2 }

/-! Model of `(*DB).Update` (mysql.go lines 445-487). -/

/-- A Go `interface{}` value as passed in the `updates` map: a string, an
integer, or the nil interface (the zero value of `var id interface{}`). -/
inductive GoVal
  | str (s : String)
  | int (n : Int)
  | nil
  deriving DecidableEq

/-- Go's `id == ""` (mysql.go line 470): an `interface{}` compares equal to
the untyped constant `""` exactly when its dynamic type is `string` and its
value is empty; the nil interface does not. -/
def GoVal.isEmptyStr : GoVal → Bool
  | .str s => s == ""
  | _ => false

/-- Bounds-checked slice store `l[n] = v`: `none` models the Go runtime
panic `index out of range`. -/
def listSet : List GoVal → Nat → GoVal → Option (List GoVal)
  | [], _, _ => none
  | _ :: rest, 0, v => some (v :: rest)
  | x :: rest, n + 1, v => (listSet rest n v).map (x :: ·)

/-- Accumulator of `Update`'s range loop: the statement string being built,
the `vals` slice, the write index `i`, and the captured `id` value. -/
structure UpdAcc where
  sql : String
  vals : List GoVal
  i : Nat
  id : GoVal
  deriving DecidableEq

/-- The `for k, v := range updates` loop of `Update` (mysql.go lines
456-464).  The map is modelled as an association list in iteration order
(each key at most once, as in a Go map).  `none` would signal an
out-of-range write inside the loop; with at most `len(updates)` non-`id`
entries this never happens. -/
def updLoop : List (String × GoVal) → UpdAcc → Option UpdAcc
  | [], acc => some acc
  | (k, v) :: rest, acc =>
    if k = "id" then updLoop rest { acc with id := v }
    else
      match listSet acc.vals acc.i v with
      | none => none
      | some vals' =>
        updLoop rest
          { acc with sql := acc.sql ++ k ++ "=?,", vals := vals', i := acc.i + 1 }

/-- `strings.TrimSuffix(sql, ",")` (mysql.go line 467). -/
def trimSuffixComma (s : String) : String :=
  if s.endsWith "," then s.dropRight 1 else s

/-- Outcome of `Update` up to the point where it hands the built query to
`Exec`: a runtime `index out of range` panic (with the offending index and
the slice length), the "missing the ID" error of line 471 (with the `i`
interpolated into it), or a well-formed call to `Exec`. -/
inductive UpdateResult
  | indexOutOfRange (idx len : Nat)
  | missingId (i : Nat)
  | exec (query : String) (vals : List GoVal)
  deriving DecidableEq

/-- `(*DB).Update` (mysql.go lines 445-487): build the SET clause, then
`vals[i] = id` (line 468) - which precedes the `id == ""` check of line
470 - then the missing-ID check, then the call to `Exec`. -/
def Update (updates : List (String × GoVal)) (table : String) :
    UpdateResult :=
  let acc0 : UpdAcc :=
    { sql := "UPDATE " ++ table ++ " SET "
      vals := List.replicate updates.length GoVal.nil
      i := 0
      id := GoVal.nil }
  match updLoop updates acc0 with
  | none => .indexOutOfRange 0 0
  | some acc =>
    match listSet acc.vals acc.i acc.id with
    | none => .indexOutOfRange acc.i acc.vals.length
    | some vals2 =>
      if acc.id.isEmptyStr then .missingId acc.i
      else .exec (trimSuffixComma acc.sql ++ " WHERE id=?") vals2

/-- Number of entries whose key is not `"id"`: the final value of `i`. -/
def countNonId : List (String × GoVal) → Nat
  | [] => 0
  | (k, _) :: rest => (if k = "id" then 0 else 1) + countNonId rest

/-- The value held by `id` after the range loop: the last `"id"` entry's
value, or the initial value `d` if there is none. -/
def finalId : List (String × GoVal) → GoVal → GoVal
  | [], d => d
  | (k, v) :: rest, d => finalId rest (if k = "id" then v else d)

/-- Concatenation of a list of strings; the fully assembled text of a line
delivered in several prefix chunks. -/
def concatAll : List String → String
  | [] => ""
  | s :: rest => s ++ concatAll rest

/-! Supporting lemmas. -/

theorem logLookup_append (L M : List (Nat × String)) (n : Nat) :
    logLookup (L ++ M) n =
      match logLookup L n with
      | some t => some t
      | none => logLookup M n := by
  induction L with
  | nil => simp [logLookup]
  | cons p rest ih =>
    obtain ⟨i, t⟩ := p
    by_cases hi : i = n <;> simp [logLookup, hi, ih]

theorem logDelete_append (L M : List (Nat × String)) (n : Nat) :
    logDelete (L ++ M) n = logDelete L n ++ logDelete M n := by
  induction L with
  | nil => simp [logDelete]
  | cons p rest ih =>
    obtain ⟨i, t⟩ := p
    by_cases hi : i = n <;> simp [logDelete, hi, ih]

theorem logDelete_of_lookup_none (L : List (Nat × String)) (n : Nat)
    (h : logLookup L n = none) : logDelete L n = L := by
  induction L with
  | nil => simp [logDelete]
  | cons p rest ih =>
    obtain ⟨i, t⟩ := p
    by_cases hi : i = n
    · simp [logLookup, hi] at h
    · simp [logLookup, hi] at h
      simp [logDelete, hi, ih h]

/-- The fused reading/processing loop factors through line assembly
(`linesOf`) followed by statement processing (`processLines`). -/
theorem schemaLoop_factor (env : Env) (recs : List (String × Bool)) :
    ∀ eof st cur data,
      schemaLoop env recs eof st cur data =
        match processLines env (linesOf data recs) st cur with
        | (st', _, some r) => (st', r)
        | (st', _, none) =>
            (st', if eof then SchemaResult.ok else SchemaResult.readErr) := by
  induction recs with
  | nil =>
    intro eof st cur data
    simp [schemaLoop, linesOf, processLines]
  | cons rec rest ih =>
    intro eof st cur data
    obtain ⟨bytes, cont⟩ := rec
    cases cont with
    | true => simpa [schemaLoop, linesOf] using ih eof st cur (data ++ bytes)
    | false =>
      by_cases hb : data ++ bytes = ""
      · simpa [schemaLoop, linesOf, processLines, hb] using ih eof st cur ""
      · cases hstep : schemaStep env st cur (data ++ bytes) with
        | next st2 cur2 =>
          simpa [schemaLoop, linesOf, processLines, hb, hstep] using
            ih eof st2 cur2 ""
        | halt st2 r =>
          simp [schemaLoop, linesOf, processLines, hb, hstep]

theorem processLines_append (env : Env) (xs : List String) :
    ∀ ys st cur,
      processLines env (xs ++ ys) st cur =
        match processLines env xs st cur with
        | (st', cur', none) => processLines env ys st' cur'
        | (st', cur', some r) => (st', cur', some r) := by
  induction xs with
  | nil => intro ys st cur; simp [processLines]
  | cons b rest ih =>
    intro ys st cur
    by_cases hb : b = ""
    · simpa [processLines, hb] using ih ys st cur
    · cases hstep : schemaStep env st cur b with
      | next st2 cur2 => simpa [processLines, hb, hstep] using ih ys st2 cur2
      | halt st2 r => simp [processLines, hb, hstep]

/-- In the failure-free environment, a statement whose log row matches
exactly is skipped: no database write, counter advanced, buffer now holding
the stored text. -/
theorem schemaStep_skip (st : DBState) (cur s : String)
    (h : logLookup st.log (st.schemaChanges + 1) = some s) :
    schemaStep envOK st cur s = .next ⟨st.log, st.schemaChanges + 1⟩ s := by
  simp [schemaStep, envOK, h]

/-- In the failure-free environment, a non-blank statement with no log row
and a non-matching buffer is applied: its row is inserted and the run
continues. -/
theorem schemaStep_apply (st : DBState) (cur s : String)
    (hlk : logLookup st.log (st.schemaChanges + 1) = none)
    (hcur : ¬cur = s) :
    schemaStep envOK st cur s =
      .next ⟨st.log ++ [(st.schemaChanges + 1, s)], st.schemaChanges + 1⟩
        cur := by
  simp [schemaStep, envOK, hlk, hcur, logInsert]

/-- All-skip runs: if the log stores exactly the run's non-blank statements
at the expected ids, the run in the failure-free environment touches
nothing and completes, its buffer ending at the last stored text. -/
theorem processLines_allMatch (lines : List String) :
    ∀ L c cur, matchesFrom L c (nonBlank lines) = true →
      processLines envOK lines ⟨L, c⟩ cur =
        (⟨L, c + (nonBlank lines).length⟩, lastD (nonBlank lines) cur,
          none) := by
  induction lines with
  | nil => intro L c cur _; simp [processLines, nonBlank, lastD]
  | cons s rest ih =>
    intro L c cur h
    by_cases hs : s = ""
    · simp only [nonBlank, if_pos hs] at h ⊢
      subst hs
      simpa [processLines] using ih L c cur h
    · simp only [nonBlank, if_neg hs] at h ⊢
      simp only [matchesFrom, Bool.and_eq_true, decide_eq_true_eq] at h
      obtain ⟨h1, h2⟩ := h
      have hstep : schemaStep envOK ⟨L, c⟩ cur s = .next ⟨L, c + 1⟩ s :=
        schemaStep_skip ⟨L, c⟩ cur s h1
      simp only [processLines, if_neg hs, hstep]
      rw [ih L (c + 1) s h2]
      simp [lastD]
      omega

/-- Fresh-apply runs: if the log has no row beyond id `c`, a run in the
failure-free environment starting with an empty buffer applies every
non-blank statement in order, appending rows `c+1, c+2, ...` with the
statement texts. -/
theorem processLines_fresh (lines : List String) :
    ∀ L c, (∀ n, c < n → logLookup L n = none) →
      processLines envOK lines ⟨L, c⟩ "" =
        (⟨L ++ numberFrom c (nonBlank lines),
          c + (nonBlank lines).length⟩, "", none) := by
  induction lines with
  | nil => intro L c _; simp [processLines, nonBlank, numberFrom]
  | cons s rest ih =>
    intro L c h
    by_cases hs : s = ""
    · simp only [nonBlank, if_pos hs]
      subst hs
      simpa [processLines] using ih L c h
    · have hlk : logLookup L (c + 1) = none := h (c + 1) (Nat.lt_succ_self c)
      have hcur : ¬("" = s) := fun hh => hs hh.symm
      have hstep := schemaStep_apply ⟨L, c⟩ "" s hlk hcur
      simp only [nonBlank, if_neg hs]
      simp only [processLines, if_neg hs, hstep]
      have h' : ∀ n, c + 1 < n → logLookup (L ++ [(c + 1, s)]) n = none := by
        intro n hn
        rw [logLookup_append, h n (by omega)]
        simp [logLookup]
        omega
      rw [ih (L ++ [(c + 1, s)]) (c + 1) h']
      simp only [numberFrom, List.append_assoc, List.singleton_append,
        List.length_cons]
      have hc : c + 1 + (nonBlank rest).length =
          c + ((nonBlank rest).length + 1) := by omega
      rw [hc]

/-- The rows appended by a fresh-apply run satisfy the all-skip hypothesis
for a second pass over the same statements. -/
theorem matchesFrom_numberFrom (stmts : List String) :
    ∀ L c, (∀ n, c < n → logLookup L n = none) →
      matchesFrom (L ++ numberFrom c stmts) c stmts = true := by
  induction stmts with
  | nil => intro L c _; simp [matchesFrom]
  | cons s rest ih =>
    intro L c h
    simp only [numberFrom, matchesFrom, Bool.and_eq_true, decide_eq_true_eq]
    constructor
    · rw [logLookup_append, h (c + 1) (Nat.lt_succ_self c)]
      simp [logLookup]
    · have := ih (L ++ [(c + 1, s)]) (c + 1) (by
        intro n hn
        rw [logLookup_append, h n (by omega)]
        simp [logLookup]
        omega)
      simpa [List.append_assoc] using this

theorem listSet_of_length_le (l : List GoVal) :
    ∀ n v, l.length ≤ n → listSet l n v = none := by
  induction l with
  | nil => intro n v _; cases n <;> simp [listSet]
  | cons x rest ih =>
    intro n v h
    cases n with
    | zero => simp at h
    | succ m =>
      simp only [List.length_cons] at h
      simp [listSet, ih m v (by omega)]

theorem listSet_of_lt (l : List GoVal) :
    ∀ n v, n < l.length →
      ∃ l', listSet l n v = some l' ∧ l'.length = l.length := by
  induction l with
  | nil => intro n v h; simp at h
  | cons x rest ih =>
    intro n v h
    cases n with
    | zero => exact ⟨v :: rest, by simp [listSet]⟩
    | succ m =>
      obtain ⟨l', hl', hlen⟩ := ih m v (by simpa using Nat.lt_of_succ_lt_succ h)
      exact ⟨x :: l', by simp [listSet, hl'], by simp [hlen]⟩

theorem updLoop_total (entries : List (String × GoVal)) :
    ∀ acc, acc.i + countNonId entries ≤ acc.vals.length →
      ∃ acc', updLoop entries acc = some acc' ∧
        acc'.vals.length = acc.vals.length ∧
        acc'.i = acc.i + countNonId entries ∧
        acc'.id = finalId entries acc.id := by
  induction entries with
  | nil => intro acc _; exact ⟨acc, by simp [updLoop, countNonId, finalId]⟩
  | cons kv rest ih =>
    intro acc h
    obtain ⟨k, v⟩ := kv
    by_cases hk : k = "id"
    · simp only [countNonId, if_pos hk, Nat.zero_add] at h
      obtain ⟨acc', h1, h2, h3, h4⟩ := ih { acc with id := v } h
      exact ⟨acc', by simp [updLoop, hk, h1],
        by simpa using h2, by simpa [countNonId, hk] using h3,
        by simpa [finalId, hk] using h4⟩
    · simp only [countNonId, if_neg hk] at h
      have hlt : acc.i < acc.vals.length := by omega
      obtain ⟨vals', hset, hlen⟩ := listSet_of_lt acc.vals acc.i v hlt
      obtain ⟨acc', h1, h2, h3, h4⟩ :=
        ih ⟨acc.sql ++ k ++ "=?,", vals', acc.i + 1, acc.id⟩
          (by simp [hlen]; omega)
      refine ⟨acc', by simp [updLoop, hk, hset, h1], ?_, ?_, ?_⟩
      · simpa [hlen] using h2
      · simp only [countNonId, if_neg hk]
        simp at h3
        omega
      · simpa [finalId, hk] using h4

theorem updLoop_id (entries : List (String × GoVal)) :
    ∀ acc acc', updLoop entries acc = some acc' →
      acc'.id = finalId entries acc.id := by
  induction entries with
  | nil => intro acc acc' h; simp [updLoop] at h; simp [finalId, ← h]
  | cons kv rest ih =>
    intro acc acc' h
    obtain ⟨k, v⟩ := kv
    by_cases hk : k = "id"
    · simp only [updLoop, if_pos hk] at h
      simpa [finalId, hk] using ih _ acc' h
    · simp only [updLoop, if_neg hk] at h
      cases hset : listSet acc.vals acc.i v with
      | none => rw [hset] at h; simp at h
      | some vals' =>
        rw [hset] at h
        simpa [finalId, hk] using ih _ acc' h

theorem countNonId_of_noId (entries : List (String × GoVal))
    (h : ∀ kv ∈ entries, kv.1 ≠ "id") :
    countNonId entries = entries.length := by
  induction entries with
  | nil => simp [countNonId]
  | cons kv rest ih =>
    have hk : kv.1 ≠ "id" := h kv (by simp)
    obtain ⟨k, v⟩ := kv
    simp only [countNonId, if_neg hk, List.length_cons]
    rw [ih (fun p hp => h p (by simp [hp]))]
    omega

theorem finalId_of_noId (entries : List (String × GoVal)) :
    ∀ d, (∀ kv ∈ entries, kv.1 ≠ "id") → finalId entries d = d := by
  induction entries with
  | nil => intro d _; simp [finalId]
  | cons kv rest ih =>
    intro d h
    have hk : kv.1 ≠ "id" := h kv (by simp)
    obtain ⟨k, v⟩ := kv
    simp only [finalId, if_neg hk]
    exact ih d (fun p hp => h p (by simp [hp]))

theorem finalId_mem (entries : List (String × GoVal)) :
    ∀ d, finalId entries d = d ∨ ("id", finalId entries d) ∈ entries := by
  induction entries with
  | nil => intro d; simp [finalId]
  | cons kv rest ih =>
    intro d
    obtain ⟨k, v⟩ := kv
    by_cases hk : k = "id"
    · simp only [finalId, if_pos hk]
      rcases ih v with h | h
      · right; rw [h, hk]; simp
      · right; simp [h]
    · simp only [finalId, if_neg hk]
      rcases ih d with h | h
      · left; exact h
      · right; simp [h]

theorem isEmptyStr_eq (v : GoVal) (h : v.isEmptyStr = true) :
    v = GoVal.str "" := by
  cases v with
  | str s =>
    simp only [GoVal.isEmptyStr, beq_iff_eq] at h
    rw [h]
  | int n => simp [GoVal.isEmptyStr] at h
  | nil => simp [GoVal.isEmptyStr] at h

theorem linesOf_map_false (lines : List String) :
    linesOf "" (lines.map (fun s => (s, false))) = lines := by
  induction lines with
  | nil => simp [linesOf]
  | cons s rest ih =>
    show ("" ++ s) :: linesOf "" (rest.map (fun s => (s, false))) = s :: rest
    rw [ih]
    rfl

/-! Claim theorems. -/

/-- C1: the claim states that `Schema` returns a nil error only if every
non-blank statement of the source is present in the log with matching text
once the stream is exhausted.  The code violates this: starting from the
reachable log `{1 ↦ "CREATE TABLE a"}` with a fresh `DB`, the two-statement
source `CREATE TABLE a / CREATE TABLE a` returns nil (`ok`), yet the
statement processed at row 2 has no log row at all - the stale `currentTx`
buffer left by the row-1 `Scan` equals the incoming text, so the absent row
is skipped as if already applied. -/
theorem C1_code_bug_eval :
    Schema envOK [("CREATE TABLE a", false), ("CREATE TABLE a", false)]
        true ⟨[(1, "CREATE TABLE a")], 0⟩ =
      (⟨[(1, "CREATE TABLE a")], 2⟩, SchemaResult.ok) ∧
    logLookup [(1, "CREATE TABLE a")] 2 = none := by
  decide

/-- C2: the claim states that after any run the log's ids form a contiguous
range with no gaps.  The code violates this: from the reachable log
`{1 ↦ "X"}` (first conjunct shows it is produced by a prior run from an
empty log), a fresh-`DB` run over `X / X / Y` returns nil and leaves the
log `{1 ↦ "X", 3 ↦ "Y"}`: row 2 was stale-skipped (never inserted) while
row 3 was applied, so id 2 is absent although id 3 is present. -/
theorem C2_code_bug_eval :
    Schema envOK [("X", false)] true ⟨[], 0⟩ =
      (⟨[(1, "X")], 1⟩, SchemaResult.ok) ∧
    Schema envOK [("X", false), ("X", false), ("Y", false)] true
        ⟨[(1, "X")], 0⟩ =
      (⟨[(1, "X"), (3, "Y")], 3⟩, SchemaResult.ok) ∧
    logLookup [(1, "X"), (3, "Y")] 2 = none ∧
    logLookup [(1, "X"), (3, "Y")] 3 = some "Y" := by
  decide

/-- C3 counterexample: the claim "Skip is taken iff the log lookup returns
a row whose text equals the incoming statement" is false.  At row 2 the
lookup returns no row, yet the step is a skip (`next` with the log
untouched), because the buffer still holds the text scanned at row 1. -/
theorem C3_counterexample :
    logLookup [(1, "X")] 2 = none ∧
    schemaStep envOK ⟨[(1, "X")], 1⟩ "X" "X" =
      StepOut.next ⟨[(1, "X")], 2⟩ "X" := by
  decide

/-- C3 (amended): the Skip transition (no database write, advance to the
next statement) is taken iff the comparison buffer `currentTx` after the
lookup equals the incoming statement's text, byte-for-byte with no
normalization - where a successful lookup overwrites the buffer with the
stored row text, but a lookup returning no row (or failing) leaves the
buffer holding the previously scanned value (`scannedTx`). -/
theorem C3_amended (env : Env) (st : DBState) (cur b : String) :
    schemaStep env st cur b =
        StepOut.next ⟨st.log, st.schemaChanges + 1⟩ (scannedTx env st cur) ↔
      scannedTx env st cur = b := by
  by_cases hlf : env.lookupFails (st.schemaChanges + 1)
  · by_cases hcb : cur = b <;> simp [schemaStep, scannedTx, hlf, hcb]
  · cases hl : logLookup st.log (st.schemaChanges + 1) with
    | some t =>
      by_cases htb : t = b <;> simp [schemaStep, scannedTx, hlf, hl, htb]
    | none =>
      by_cases hcb : cur = b
      · simp [schemaStep, scannedTx, hlf, hl, hcb]
      · have hne : ¬scannedTx env st cur = b := by
          simpa [scannedTx, hlf, hl] using hcb
        simp only [hne, iff_false]
        intro hgoal
        rw [show scannedTx env st cur = cur by simp [scannedTx, hlf, hl]]
          at hgoal
        by_cases hbg : env.beginFails (st.schemaChanges + 1) <;>
          by_cases hins : env.insertFails (st.schemaChanges + 1) <;>
            by_cases hex : env.execFails (st.schemaChanges + 1) b <;>
              by_cases hcm : env.commitFails (st.schemaChanges + 1) <;>
                simp [schemaStep, hlf, hl, hcb, hbg, hins, hex, hcm,
                  logInsert] at hgoal

/-- C4 counterexample: the claim says a log lookup failing with an error
other than "no such row" always halts the run.  Here the lookup for row 2
fails (`envLF2`), yet the run silently classifies the statement as already
applied (stale buffer match) and returns nil. -/
theorem C4_counterexample :
    envLF2.lookupFails 2 = true ∧
    Schema envLF2 [("X", false), ("X", false)] true ⟨[(1, "X")], 0⟩ =
      (⟨[(1, "X")], 2⟩, SchemaResult.ok) := by
  decide

/-- C4 (amended): when the log lookup for a row fails with an error other
than "no such row", the statement is never treated as new (no transaction,
no insert, no execution): the run halts with the fatal error of mysql.go
line 176 - unless the stale comparison buffer equals the incoming text, in
which case the statement is silently skipped as already applied. -/
theorem C4_amended (env : Env) (st : DBState) (cur b : String)
    (h : env.lookupFails (st.schemaChanges + 1) = true) :
    schemaStep env st cur b =
      if cur = b then StepOut.next ⟨st.log, st.schemaChanges + 1⟩ cur
      else
        StepOut.halt ⟨st.log, st.schemaChanges + 1⟩
          (SchemaResult.divergence (st.schemaChanges + 1) cur b) := by
  by_cases hcb : cur = b <;> simp [schemaStep, h, hcb]

/-- C4 witness: the amended theorem at a concrete input - lookup for row 2
fails, buffer `"A"` differs from incoming `"B"`, and the run halts. -/
theorem C4_witness :
    envLF2.lookupFails 2 = true ∧
    schemaStep envLF2 ⟨[], 1⟩ "A" "B" =
      StepOut.halt ⟨[], 2⟩ (SchemaResult.divergence 2 "A" "B") := by
  refine ⟨by decide, ?_⟩
  rw [C4_amended envLF2 ⟨[], 1⟩ "A" "B" (by decide)]
  decide

/-- Bridge: a `Schema` run with no setup failure and an `io.EOF` terminal
is line assembly followed by statement processing. -/
theorem Schema_processLines (env : Env) (recs : List (String × Bool))
    (st : DBState)
    (h1 : env.setupBeginFails = false) (h2 : env.createFails = false)
    (h3 : env.setupCommitFails = false) :
    Schema env recs true st =
      match processLines env (linesOf "" recs) st "" with
      | (st', _, some r) => (st', r)
      | (st', _, none) => (st', SchemaResult.ok) := by
  rw [Schema, if_neg (by simp [h1]), if_neg (by simp [h2]),
    if_neg (by simp [h3]), schemaLoop_factor]
  cases hp : processLines env (linesOf "" recs) st "" with
  | mk st' p =>
    obtain ⟨cur', r⟩ := p
    cases r <;> rfl

/-- C5 counterexample: the claim's final clause - "the next run retries
that exact sequence as a new statement" - is false.  Run 1 (empty log,
execution of row 2 fails) compensates correctly: it halts with the apply
error for row 2 and leaves only row 1, with no row at id 2.  But run 2
(fresh `DB`, failure-free) does not retry row 2 as new: the statement text
equals the row-1 text held in the stale buffer, so row 2 is skipped, the
log is left without it, and the run reports success. -/
theorem C5_counterexample :
    Schema envEF2 [("S", false), ("S", false)] true ⟨[], 0⟩ =
      (⟨[(1, "S")], 2⟩, SchemaResult.applyErr 2 "S") ∧
    logLookup [(1, "S")] 2 = none ∧
    Schema envOK [("S", false), ("S", false)] true ⟨[(1, "S")], 0⟩ =
      (⟨[(1, "S")], 2⟩, SchemaResult.ok) := by
  decide

/-- C5 (amended): when execution of a new statement fails after its log row
was inserted (and the compensating delete itself succeeds), `Schema`
deletes the just-inserted row for that sequence, commits the deletion, and
halts with a fatal error naming the sequence, leaving the log exactly as it
was - so a lookup for that sequence finds no row.  A later run then
re-attempts that sequence as a new statement provided that, when it reaches
it, its comparison buffer (the last successfully scanned row text) differs
from the statement's text; when the buffer matches - e.g. the preceding
statement has identical text - the sequence is stale-skipped instead. -/
theorem C5_amended :
    (∀ (env : Env) (st : DBState) (cur b : String),
      env.lookupFails (st.schemaChanges + 1) = false →
      logLookup st.log (st.schemaChanges + 1) = none →
      env.beginFails (st.schemaChanges + 1) = false →
      env.insertFails (st.schemaChanges + 1) = false →
      env.deleteFails (st.schemaChanges + 1) = false →
      env.execFails (st.schemaChanges + 1) b = true →
      cur ≠ b →
      schemaStep env st cur b =
        StepOut.halt ⟨st.log, st.schemaChanges + 1⟩
          (SchemaResult.applyErr (st.schemaChanges + 1) b)) ∧
    (∀ (env : Env) (st : DBState) (cur b : String),
      env.lookupFails (st.schemaChanges + 1) = false →
      logLookup st.log (st.schemaChanges + 1) = none →
      env.beginFails (st.schemaChanges + 1) = false →
      env.insertFails (st.schemaChanges + 1) = false →
      env.execFails (st.schemaChanges + 1) b = false →
      env.commitFails (st.schemaChanges + 1) = false →
      cur ≠ b →
      schemaStep env st cur b =
        StepOut.next
          ⟨logInsert st.log (st.schemaChanges + 1) b,
            st.schemaChanges + 1⟩ cur) := by
  constructor
  · intro env st cur b h1 h2 h3 h4 h5 h6 h7
    have hdel : logDelete (logInsert st.log (st.schemaChanges + 1) b)
        (st.schemaChanges + 1) = st.log := by
      rw [logInsert, logDelete_append, logDelete_of_lookup_none _ _ h2]
      simp [logDelete]
    simp [schemaStep, h1, h2, h3, h4, h5, h6, h7, hdel]
  · intro env st cur b h1 h2 h3 h4 h5 h6 h7
    simp [schemaStep, h1, h2, h3, h4, h5, h6, h7]

/-- C5 witness: the amended theorem at concrete inputs.  Row-2 execution
fails with buffer `"Q"` ≠ incoming `"S"`: compensated halt leaving the log
unchanged; and in a failure-free environment the same configuration applies
the statement as new, inserting row 2. -/
theorem C5_witness :
    schemaStep envEF2 ⟨[(1, "S")], 1⟩ "Q" "S" =
      StepOut.halt ⟨[(1, "S")], 2⟩ (SchemaResult.applyErr 2 "S") ∧
    schemaStep envOK ⟨[(1, "S")], 1⟩ "Q" "S" =
      StepOut.next ⟨[(1, "S"), (2, "S")], 2⟩ "Q" :=
  ⟨C5_amended.1 envEF2 ⟨[(1, "S")], 1⟩ "Q" "S" (by decide) (by decide)
      (by decide) (by decide) (by decide) (by decide) (by decide),
    C5_amended.2 envOK ⟨[(1, "S")], 1⟩ "Q" "S" (by decide) (by decide)
      (by decide) (by decide) (by decide) (by decide) (by decide)⟩

/-- C6 counterexample: the claim says the per-run statement counter starts
fresh for each invocation and a second run over the same source leaves the
log unchanged with everything skipped.  Calling `Schema` twice on the same
`DB` value falsifies both: after the first run (counter now 1), the second
run numbers the same statement as row 2, finds no row 2, applies it again,
and appends `(2, "A")` - the log changes and nothing was skipped. -/
theorem C6_counterexample :
    Schema envOK [("A", false)] true ⟨[], 0⟩ =
      (⟨[(1, "A")], 1⟩, SchemaResult.ok) ∧
    Schema envOK [("A", false)] true ⟨[(1, "A")], 1⟩ =
      (⟨[(1, "A"), (2, "A")], 2⟩, SchemaResult.ok) ∧
    [(1, "A"), (2, "A")] ≠ [(1, "A")] := by
  decide

/-- C6 (amended): running the reconciliation twice against the same target
with the same source yields a nil error both times and leaves the log
unchanged after the second run, provided each invocation uses a fresh `DB`
value (counter 0): `schemaChanges` is a field of the `DB` struct that
persists across invocations on the same value rather than starting fresh,
so the idempotent-replay guarantee holds per `DB` value, not per
invocation. -/
theorem C6_amended (recs : List (String × Bool)) :
    Schema envOK recs true ⟨[], 0⟩ =
      (⟨numberFrom 0 (nonBlank (linesOf "" recs)),
        (nonBlank (linesOf "" recs)).length⟩, SchemaResult.ok) ∧
    Schema envOK recs true
        ⟨numberFrom 0 (nonBlank (linesOf "" recs)), 0⟩ =
      (⟨numberFrom 0 (nonBlank (linesOf "" recs)),
        (nonBlank (linesOf "" recs)).length⟩, SchemaResult.ok) := by
  have hrun1 := processLines_fresh (linesOf "" recs) [] 0
    (by intro n _; simp [logLookup])
  simp only [List.nil_append, Nat.zero_add] at hrun1
  have hmatch : matchesFrom (numberFrom 0 (nonBlank (linesOf "" recs))) 0
      (nonBlank (linesOf "" recs)) = true := by
    have := matchesFrom_numberFrom (nonBlank (linesOf "" recs)) [] 0
      (by intro n _; simp [logLookup])
    simpa using this
  have hrun2 := processLines_allMatch (linesOf "" recs)
    (numberFrom 0 (nonBlank (linesOf "" recs))) 0 "" hmatch
  simp only [Nat.zero_add] at hrun2
  constructor
  · rw [Schema_processLines envOK recs ⟨[], 0⟩ rfl rfl rfl, hrun1]
  · rw [Schema_processLines envOK recs
      ⟨numberFrom 0 (nonBlank (linesOf "" recs)), 0⟩ rfl rfl rfl, hrun2]

/-- C7: when the log row stored at a sequence differs from the incoming
statement's text, `Schema` halts with the divergence error naming that
sequence, the stored text and the incoming text; the statements after the
divergent one are never read (the result does not depend on `rest`) and
the log is left exactly as it was for the whole run (the preceding
statements all matched and were skipped). -/
theorem C7_thm (pre rest : List String) (bad stored : String)
    (L : List (Nat × String))
    (hpre : matchesFrom L 0 (nonBlank pre) = true)
    (hlk : logLookup L ((nonBlank pre).length + 1) = some stored)
    (hbad : bad ≠ "")
    (hne : stored ≠ bad) :
    Schema envOK ((pre ++ bad :: rest).map (fun s => (s, false))) true
        ⟨L, 0⟩ =
      (⟨L, (nonBlank pre).length + 1⟩,
        SchemaResult.divergence ((nonBlank pre).length + 1) stored bad) := by
  rw [Schema_processLines envOK _ ⟨L, 0⟩ rfl rfl rfl, linesOf_map_false,
    processLines_append]
  have hm := processLines_allMatch pre L 0 "" hpre
  simp only [Nat.zero_add] at hm
  rw [hm]
  have hstep : schemaStep envOK ⟨L, (nonBlank pre).length⟩
      (lastD (nonBlank pre) "") bad =
      StepOut.halt ⟨L, (nonBlank pre).length + 1⟩
        (SchemaResult.divergence ((nonBlank pre).length + 1) stored
          bad) := by
    simp [schemaStep, envOK, hlk, hne]
  simp [processLines, hbad, hstep]

/-- C7 witness: the spec's own scenario - log `{1 ↦ "CREATE TABLE a"}`,
incoming first statement `"CREATE TABLE b"`: divergence at sequence 1
naming both texts, log unmodified, the following statement unread. -/
theorem C7_witness :
    logLookup [(1, "CREATE TABLE a")] 1 = some "CREATE TABLE a" ∧
    Schema envOK [("CREATE TABLE b", false), ("SET x", false)] true
        ⟨[(1, "CREATE TABLE a")], 0⟩ =
      (⟨[(1, "CREATE TABLE a")], 1⟩,
        SchemaResult.divergence 1 "CREATE TABLE a" "CREATE TABLE b") :=
  ⟨by decide,
    C7_thm [] ["SET x"] "CREATE TABLE b" "CREATE TABLE a"
      [(1, "CREATE TABLE a")] (by decide) (by decide) (by decide)
      (by decide)⟩

/-- C8 counterexample: the claim says a record reported as partial always
ends up in exactly one statement carrying the full assembled line.  If the
stream ends right after a partial record (with `bufio`, a final line whose
length is an exact multiple of the internal buffer and that lacks a
trailing newline), the pending fragment is silently discarded at the EOF
check of mysql.go line 156: no statement is yielded at all, and the run
reports success. -/
theorem C8_counterexample :
    linesOf "" [("CREATE TABLE a", true)] = [] ∧
    Schema envOK [("CREATE TABLE a", true)] true ⟨[], 0⟩ =
      (⟨[], 0⟩, SchemaResult.ok) := by
  decide

/-- C8 (amended): partial fragments are accumulated across reads, and when
a final complete (non-partial) record arrives the reader yields exactly one
line whose text is the full assembled concatenation - never a truncation
and never more than one statement; fragments still pending when the stream
ends, however, are discarded and yield nothing. -/
theorem C8_amended (chunks : List String) (data final : String)
    (rest : List (String × Bool)) :
    linesOf data
        (chunks.map (fun c => (c, true)) ++ (final, false) :: rest) =
      (data ++ concatAll chunks ++ final) :: linesOf "" rest := by
  induction chunks generalizing data with
  | nil =>
    show (data ++ final) :: linesOf "" rest = _
    rw [concatAll, String.append_empty]
  | cons c cs ih =>
    show linesOf (data ++ c)
        (cs.map (fun c => (c, true)) ++ (final, false) :: rest) = _
    rw [ih (data ++ c), concatAll, ← String.append_assoc data c
      (concatAll cs)]

/-- C9: blank lines consume no sequence number and cause no log access or
state change whatsoever (first conjunct: for every environment and state,
processing a blank line is the identity); every processed non-blank
statement consumes exactly one sequence number, `schemaChanges + 1`
(second conjunct); and over a fresh target the n-th non-blank statement of
the source is recorded at sequence n - determined purely by its position
after blank-skipping (third conjunct). -/
theorem C9_thm :
    (∀ (env : Env) (rest : List String) (st : DBState) (cur : String),
      processLines env ("" :: rest) st cur =
        processLines env rest st cur) ∧
    (∀ (env : Env) (st : DBState) (cur b : String),
      (schemaStep env st cur b).state.schemaChanges =
        st.schemaChanges + 1) ∧
    (∀ lines : List String,
      processLines envOK lines ⟨[], 0⟩ "" =
        (⟨numberFrom 0 (nonBlank lines), (nonBlank lines).length⟩, "",
          none)) := by
  refine ⟨?_, ?_, ?_⟩
  · intro env rest st cur
    simp [processLines]
  · intro env st cur b
    by_cases hlf : env.lookupFails (st.schemaChanges + 1)
    · by_cases hcb : cur = b <;>
        simp [schemaStep, hlf, hcb, StepOut.state]
    · cases hl : logLookup st.log (st.schemaChanges + 1) with
      | some t =>
        by_cases htb : t = b <;>
          simp [schemaStep, hlf, hl, htb, StepOut.state]
      | none =>
        by_cases hcb : cur = b
        · simp [schemaStep, hlf, hl, hcb, StepOut.state]
        · by_cases hbg : env.beginFails (st.schemaChanges + 1) <;>
            by_cases hins : env.insertFails (st.schemaChanges + 1) <;>
              by_cases hex : env.execFails (st.schemaChanges + 1) b <;>
                by_cases hcm : env.commitFails (st.schemaChanges + 1) <;>
                  simp [schemaStep, hlf, hl, hcb, hbg, hins, hex, hcm,
                    StepOut.state]
  · intro lines
    have := processLines_fresh lines [] 0 (by intro n _; simp [logLookup])
    simpa using this

/-- C10: for every `updates` map with no `"id"` key, `Update` writes to
slice index `len(updates)` - one past the end of the `vals` slice - before
its missing-ID check runs, so the call fails with an out-of-range access
rather than returning the "missing the ID" error (first conjunct); and
that error is returned only when the map maps `"id"` to the empty string
(second conjunct). -/
theorem C10_thm :
    (∀ (updates : List (String × GoVal)) (table : String),
      (∀ kv ∈ updates, kv.1 ≠ "id") →
      Update updates table =
        UpdateResult.indexOutOfRange updates.length updates.length) ∧
    (∀ (updates : List (String × GoVal)) (table : String) (i : Nat),
      Update updates table = UpdateResult.missingId i →
      ("id", GoVal.str "") ∈ updates) := by
  constructor
  · intro updates table h
    obtain ⟨acc', h1, h2, h3, h4⟩ := updLoop_total updates
      ⟨"UPDATE " ++ table ++ " SET ",
        List.replicate updates.length GoVal.nil, 0, GoVal.nil⟩
      (by simp [countNonId_of_noId updates h])
    have hi : acc'.i = updates.length := by
      simpa [countNonId_of_noId updates h] using h3
    have hlen : acc'.vals.length = updates.length := by simpa using h2
    have hset : listSet acc'.vals updates.length acc'.id = none :=
      listSet_of_length_le acc'.vals updates.length acc'.id (by omega)
    simp only [Update, h1, hi, hlen, hset]
  · intro updates table i h
    simp only [Update] at h
    cases hl : updLoop updates
        ⟨"UPDATE " ++ table ++ " SET ",
          List.replicate updates.length GoVal.nil, 0, GoVal.nil⟩ with
    | none => rw [hl] at h; simp at h
    | some acc' =>
      rw [hl] at h
      simp only [] at h
      cases hset : listSet acc'.vals acc'.i acc'.id with
      | none => rw [hset] at h; simp at h
      | some vals2 =>
        rw [hset] at h
        by_cases hid : acc'.id.isEmptyStr
        · have hido := isEmptyStr_eq acc'.id hid
          have hfin := updLoop_id updates _ acc' hl
          rcases finalId_mem updates GoVal.nil with hfa | hfa
          · rw [← hfin, hido] at hfa
            exact absurd hfa (by simp)
          · rw [← hfin, hido] at hfa
            exact hfa
        · simp [hid] at h

/-- C10 witness: concrete instances of both conjuncts - a one-entry map
without `"id"` panics with index 1 on a slice of length 1, and the map
`{a ↦ 1, id ↦ ""}`, for which `Update` returns the missing-ID error,
indeed maps `"id"` to the empty string. -/
theorem C10_witness :
    Update [("name", GoVal.str "x")] "t" =
      UpdateResult.indexOutOfRange 1 1 ∧
    ("id", GoVal.str "") ∈ [("a", GoVal.int 1), ("id", GoVal.str "")] :=
  ⟨C10_thm.1 [("name", GoVal.str "x")] "t" (by decide),
    C10_thm.2 [("a", GoVal.int 1), ("id", GoVal.str "")] "t" 1 (by decide)⟩

end Mysql
